import Mathlib

/-!
Shallow embedding of the lead-loading, visibility-filtering and bulk-mutation
logic of the leads CRM front end (src/src/pages/SalesLeads.tsx and the
BulkActions component).  The remote record store is modelled as the list of
its rows, taken in the order the query returns them (created_at descending);
the server-side filter `is_converted = false` is part of the query model.
Each asynchronous handler is modelled as a pure function from the request
outcomes to the resulting component state.
-/

/-- A lead row, with the fields the claims mention.  `assigned_to` is
nullable in the source and is modelled as an `Option String`. -/
structure Lead where
  id : String
  first_name : String
  email : String
  status : String
  assigned_to : Option String
  desk : String
  team : String
  is_converted : Bool
  created_at : String
deriving DecidableEq

/-- The authenticated viewer (`currentUser` in the source). -/
structure Viewer where
  id : String
  full_name : String
  role : String
deriving DecidableEq

/-- An audit record inserted into the `lead_activities` table. -/
structure Activity where
  lead_id : String
  type : String
  description : String
deriving DecidableEq

/-- The external store state touched by the bulk operations. -/
structure Db where
  leads : List Lead
  activities : List Activity
deriving DecidableEq

namespace SalesLeads

/-- Page size of the incremental fetch (`batchSize`, SalesLeads.tsx line 84). -/
def batchSize : Nat := 1000

/-- Server-side filter of the leads query: `.eq("is_converted", false)`
(SalesLeads.tsx lines 104 and 168). -/
def nonConverted (table : List Lead) : List Lead :=
  table.filter (fun l => l.is_converted == false)

/-- Model of one page request:
`.range(offset, offset + batchSize - 1)` over the converted-filtered,
created_at-descending-ordered table (SalesLeads.tsx lines 92-106, 156-170). -/
def leadsQuery (table : List Lead) (offset : Nat) : List Lead :=
  ((nonConverted table).drop offset).take batchSize

/-- A store that answers every page request successfully from `table`. -/
def storeRespond (table : List Lead) : Nat → Except Unit (List Lead) :=
  fun offset => Except.ok (leadsQuery table offset)

/-- The subordinate check
`lead.assigned_to && subordinateIds.includes(lead.assigned_to)`
(SalesLeads.tsx lines 127, 133, 192-193, 199-200): a null assignee never
matches. -/
def assignedIn (subs : List String) (lead : Lead) : Bool :=
  match lead.assigned_to with
  | some a => subs.contains a
  | none => false

/-- Role-based filter applied to the first batch
(SalesLeads.tsx lines 118-139).  The if-chain has no final else, so an
unrecognised role keeps the batch unchanged. -/
def filterFirstBatch (u : Viewer) (subs : List String) (allLeads : List Lead) : List Lead :=
  if u.role = "admin" then allLeads
  else if u.role = "desk" then
    allLeads.filter (fun lead =>
      lead.desk == u.full_name || lead.assigned_to == some u.id || assignedIn subs lead)
  else if u.role = "manager" then
    allLeads.filter (fun lead =>
      lead.assigned_to == some u.id || assignedIn subs lead)
  else if u.role = "agent" then
    allLeads.filter (fun lead => lead.assigned_to == some u.id)
  else allLeads

/-- Role-based filter applied to each background batch
(SalesLeads.tsx lines 184-206); textually the same logic as the
first-batch filter. -/
def filterBatchBg (u : Viewer) (subs : List String) (data : List Lead) : List Lead :=
  if u.role = "admin" then data
  else if u.role = "desk" then
    data.filter (fun lead =>
      lead.desk == u.full_name || lead.assigned_to == some u.id || assignedIn subs lead)
  else if u.role = "manager" then
    data.filter (fun lead =>
      lead.assigned_to == some u.id || assignedIn subs lead)
  else if u.role = "agent" then
    data.filter (fun lead => lead.assigned_to == some u.id)
  else data

/-- The `setLeads` updater of the background merge
(SalesLeads.tsx lines 210-215): collect the identities already displayed,
keep only batch members whose identity is unseen, and append them;
if none are new, return the previous collection unchanged. -/
def mergeLeads (prev filteredBatch : List Lead) : List Lead :=
  if (filteredBatch.filter (fun l => !(prev.any (fun p => p.id == l.id)))).length = 0 then prev
  else prev ++ filteredBatch.filter (fun l => !(prev.any (fun p => p.id == l.id)))

/-- The guard around the merge (SalesLeads.tsx line 209): `setLeads` runs
only when the filtered batch is non-empty. -/
def appendFiltered (prev fb : List Lead) : List Lead :=
  if 0 < fb.length then mergeLeads prev fb else prev

/-- Observable outcome of the background continuation: the displayed
collection, the number of page requests it issued, and whether a page
error was logged (console.error at SalesLeads.tsx line 173). -/
structure BgResult where
  leads : List Lead
  requests : Nat
  errorLogged : Bool
deriving DecidableEq

/-- The `loadRemaining` while-loop (SalesLeads.tsx lines 146-238).
`fuel` is the number of loop iterations still allowed
(`maxIterations - iterations`); each iteration issues one page request.
An errored request breaks out of the loop; a non-empty page is filtered
and merged, and a short or empty page clears `hasMore`. -/
def loadRemainingGo (respond : Nat → Except Unit (List Lead)) (u : Viewer)
    (subs : List String) : Nat → Nat → List Lead → Nat → BgResult
  | 0, _offset, leads, reqs => ⟨leads, reqs, false⟩
  | fuel + 1, offset, leads, reqs =>
    match respond offset with
    | Except.error _ => ⟨leads, reqs + 1, true⟩
    | Except.ok data =>
      if 0 < data.length then
        if data.length < batchSize then
          ⟨appendFiltered leads (filterBatchBg u subs data), reqs + 1, false⟩
        else
          loadRemainingGo respond u subs fuel (offset + batchSize)
            (appendFiltered leads (filterBatchBg u subs data)) (reqs + 1)
      else ⟨leads, reqs + 1, false⟩

/-- Observable outcome of one full `fetchLeads` run. -/
structure FetchResult where
  leads : List Lead
  requests : Nat
  failed : Bool
deriving DecidableEq

/-- One run of `fetchLeads` (SalesLeads.tsx lines 77-247): the first page
is requested synchronously, filtered and displayed, then the background
continuation starts at `offset = batchSize` with `maxIterations = 100`.
A failing first request is caught, leaving the freshly cleared collection
empty. -/
def fetchLeadsRun (respond : Nat → Except Unit (List Lead)) (u : Viewer)
    (subs : List String) : FetchResult :=
  match respond 0 with
  | Except.error _ => ⟨[], 1, true⟩
  | Except.ok firstBatch =>
    let r := loadRemainingGo respond u subs 100 batchSize
      (filterFirstBatch u subs firstBatch) 1
    ⟨r.leads, r.requests, false⟩

/-- The in-place collection update of a single-lead status change
(SalesLeads.tsx lines 358-362). -/
def applyStatusChange (leadId newStatus : String) (leads : List Lead) : List Lead :=
  leads.map (fun lead =>
    if lead.id == leadId then { lead with status := newStatus } else lead)

/-- The in-place collection update of a single-lead assignment change
(SalesLeads.tsx lines 391-395). -/
def applyAssignAgent (leadId : String) (agentId : Option String) (leads : List Lead) : List Lead :=
  leads.map (fun lead =>
    if lead.id == leadId then { lead with assigned_to := agentId } else lead)

/-- Observable outcome of a single-lead handler: the displayed collection,
the notifications shown, and whether a full refetch was triggered
(these handlers never touch `refreshTrigger`). -/
structure SingleUpdateResult where
  leads : List Lead
  toasts : List String
  refetch : Bool
deriving DecidableEq

/-- `handleStatusChange` (SalesLeads.tsx lines 341-367).  `updateOk` is the
outcome of the store update; the audit insert's result is not inspected by
the source, so it does not appear here.  On failure the collection is left
untouched and an error toast is shown. -/
def handleStatusChange (updateOk : Bool) (leadId newStatus : String)
    (leads : List Lead) : SingleUpdateResult :=
  if updateOk then
    { leads := applyStatusChange leadId newStatus leads,
      toasts := ["Status updated successfully"], refetch := false }
  else
    { leads := leads, toasts := ["Failed to update status"], refetch := false }

/-- `handleAssignAgent` (SalesLeads.tsx lines 369-402), analogous to the
status handler. -/
def handleAssignAgent (updateOk : Bool) (leadId : String) (agentId : Option String)
    (leads : List Lead) : SingleUpdateResult :=
  if updateOk then
    { leads := applyAssignAgent leadId agentId leads,
      toasts := [if agentId.isSome then "Lead assigned successfully"
                 else "Lead unassigned successfully"],
      refetch := false }
  else
    { leads := leads, toasts := ["Failed to assign agent"], refetch := false }

end SalesLeads

namespace BulkActions

/-- The `isAdmin` flag set by `checkUserRole` (BulkActions lines 25-28):
`user?.role === 'admin' || user?.role === 'desk'`. -/
def checkUserRole (user : Option Viewer) : Bool :=
  match user with
  | some u => u.role == "admin" || u.role == "desk"
  | none => false

/-- Observable outcome of a bulk mutation: the store and the notifications. -/
structure BulkResult where
  db : Db
  toasts : List String
deriving DecidableEq

/-- Bulk `handleStatusChange` (BulkActions lines 79-104): one store update
keyed by the selected identities, then one audit insert per selected lead.
`updateOk` is the outcome of the store update; `auditOk i` is the outcome
of the i-th audit insert.  The audit results are never inspected, so any
of them may fail without changing the control flow: a single success toast
follows. -/
def handleStatusChange (selected : List Lead) (newStatus : String)
    (updateOk : Bool) (auditOk : Nat → Bool) (db : Db) : BulkResult :=
  if updateOk then
    { db :=
        { leads := db.leads.map (fun l =>
            if (selected.map Lead.id).contains l.id
            then { l with status := newStatus } else l),
          activities := db.activities ++
            (selected.enum.filter (fun p => auditOk p.1)).map (fun p =>
              { lead_id := p.2.id, type := "status_change",
                description := "Status changed to " ++ newStatus ++ " (bulk update)" }) },
      toasts := ["Status updated for selected leads"] }
  else
    { db := db, toasts := ["Failed to update status"] }

/-- Outcome of `handleDeleteLeads`. -/
inductive DeleteResult where
  | rejected (msg : String)
  | cancelled
  | deleted (ids : List String)
  | failed (msg : String)
deriving DecidableEq

/-- `handleDeleteLeads` (BulkActions lines 133-157): gate on the `isAdmin`
flag, then on the confirmation dialog, then issue one delete keyed by the
selected identities. -/
def handleDeleteLeads (isAdmin : Bool) (confirmed : Bool) (deleteOk : Bool)
    (selected : List Lead) : DeleteResult :=
  if !isAdmin then DeleteResult.rejected "Only admins can delete leads"
  else if !confirmed then DeleteResult.cancelled
  else if deleteOk then DeleteResult.deleted (selected.map Lead.id)
  else DeleteResult.failed "Failed to delete leads"

end BulkActions

/-- Modelled from the spec (section 4.2): the visibility predicate
`visible(lead, viewer, subordinates)`, with the fall-through case of the
source made explicit as acceptance.  Compared against the code-side
filters via `filterFirstBatch_eq_filter` and `filterBatchBg_eq_filter`. -/
def visibleSpec (u : Viewer) (subs : List String) (lead : Lead) : Bool :=
  if u.role = "admin" then true
  else if u.role = "desk" then
    lead.desk == u.full_name || lead.assigned_to == some u.id ||
      SalesLeads.assignedIn subs lead
  else if u.role = "manager" then
    lead.assigned_to == some u.id || SalesLeads.assignedIn subs lead
  else if u.role = "agent" then
    lead.assigned_to == some u.id
  else true

/-- The display invariant of spec section 3: no duplicate identities, all
leads unconverted and visible to the viewer. -/
def displayInvariant (u : Viewer) (subs : List String) (D : List Lead) : Prop :=
  (D.map Lead.id).Nodup ∧
    ∀ l ∈ D, l.is_converted = false ∧ visibleSpec u subs l = true

/-- Sample viewer with the admin role. -/
def adminV : Viewer := { id := "u0", full_name := "Admin One", role := "admin" }

/-- Sample viewer with the desk role. -/
def deskV : Viewer := { id := "u5", full_name := "Desk One", role := "desk" }

/-- Sample viewer with the manager role, as in the spec scenario. -/
def mgrV : Viewer := { id := "u1", full_name := "Manager One", role := "manager" }

/-- Sample viewer with the agent role and identity u1. -/
def agentV : Viewer := { id := "u1", full_name := "Agent One", role := "agent" }

/-- Sample viewer with a role outside the recognised set. -/
def otherV : Viewer := { id := "u9", full_name := "Other One", role := "supervisor" }

/-- Sample lead assigned to u1. -/
def leadU1 : Lead :=
  { id := "L1", first_name := "Ann", email := "ann@x.io", status := "New",
    assigned_to := some "u1", desk := "D1", team := "T1",
    is_converted := false, created_at := "2025-01-03" }

/-- Sample lead assigned to u2. -/
def leadU2 : Lead :=
  { id := "L2", first_name := "Bob", email := "bob@x.io", status := "New",
    assigned_to := some "u2", desk := "D1", team := "T1",
    is_converted := false, created_at := "2025-01-02" }

/-- Sample lead assigned to u4. -/
def leadU4 : Lead :=
  { id := "L4", first_name := "Cid", email := "cid@x.io", status := "New",
    assigned_to := some "u4", desk := "D2", team := "T2",
    is_converted := false, created_at := "2025-01-01" }

/-- Sample store holding the three sample leads and no audit records. -/
def db0 : Db := { leads := [leadU1, leadU2, leadU4], activities := [] }

/-- A page responder whose every request errors. -/
def errRespond : Nat → Except Unit (List Lead) := fun _ => Except.error ()

/-- The leads actually appended by a merge: batch members whose identity is
not yet displayed (the `newOnes` of SalesLeads.tsx lines 211-212). -/
def newLeads (prev b : List Lead) : List Lead :=
  b.filter (fun l => !(prev.any (fun p => p.id == l.id)))

lemma mergeLeads_def (prev b : List Lead) :
    SalesLeads.mergeLeads prev b
      = if (newLeads prev b).length = 0 then prev else prev ++ newLeads prev b := rfl

lemma mem_ids_any (D : List Lead) (x : String) :
    D.any (fun p => p.id == x) = true ↔ x ∈ D.map Lead.id := by
  simp only [List.any_eq_true, List.mem_map, beq_iff_eq]

lemma assignedIn_iff (subs : List String) (l : Lead) :
    SalesLeads.assignedIn subs l = true ↔ ∃ a ∈ subs, l.assigned_to = some a := by
  cases h : l.assigned_to with
  | none => simp [SalesLeads.assignedIn, h]
  | some a => simp [SalesLeads.assignedIn, h, eq_comm]

lemma filterBatchBg_eq_first (u : Viewer) (subs : List String) (b : List Lead) :
    SalesLeads.filterBatchBg u subs b = SalesLeads.filterFirstBatch u subs b := rfl

lemma filterFirstBatch_eq_filter (u : Viewer) (subs : List String) (b : List Lead) :
    SalesLeads.filterFirstBatch u subs b = b.filter (visibleSpec u subs) := by
  by_cases h1 : u.role = "admin"
  · rw [SalesLeads.filterFirstBatch, if_pos h1,
      List.filter_eq_self.mpr (fun a _ => by simp [visibleSpec, h1])]
  by_cases h2 : u.role = "desk"
  · rw [SalesLeads.filterFirstBatch, if_neg h1, if_pos h2]
    exact List.filter_congr (fun a _ => by simp [visibleSpec, h1, h2])
  by_cases h3 : u.role = "manager"
  · rw [SalesLeads.filterFirstBatch, if_neg h1, if_neg h2, if_pos h3]
    exact List.filter_congr (fun a _ => by simp [visibleSpec, h1, h2, h3])
  by_cases h4 : u.role = "agent"
  · rw [SalesLeads.filterFirstBatch, if_neg h1, if_neg h2, if_neg h3, if_pos h4]
    exact List.filter_congr (fun a _ => by simp [visibleSpec, h1, h2, h3, h4])
  · rw [SalesLeads.filterFirstBatch, if_neg h1, if_neg h2, if_neg h3, if_neg h4,
      List.filter_eq_self.mpr (fun a _ => by simp [visibleSpec, h1, h2, h3, h4])]

lemma filterBatchBg_eq_filter (u : Viewer) (subs : List String) (b : List Lead) :
    SalesLeads.filterBatchBg u subs b = b.filter (visibleSpec u subs) :=
  filterFirstBatch_eq_filter u subs b

lemma mergeLeads_covers (D B : List Lead) :
    ∀ l ∈ B, (SalesLeads.mergeLeads D B).any (fun p => p.id == l.id) = true := by
  intro l hl
  rw [mergeLeads_def]
  by_cases h0 : (newLeads D B).length = 0
  · rw [if_pos h0]
    have hnil : newLeads D B = [] := List.length_eq_zero.mp h0
    have h2 := List.filter_eq_nil_iff.mp hnil l hl
    simpa using h2
  · rw [if_neg h0, List.any_append]
    by_cases hD : D.any (fun p => p.id == l.id) = true
    · simp [hD]
    · have hmem : l ∈ newLeads D B := List.mem_filter.mpr ⟨hl, by simp [hD]⟩
      have hany : (newLeads D B).any (fun p => p.id == l.id) = true :=
        List.any_eq_true.mpr ⟨l, hmem, by simp⟩
      simp [hany]

/-- Claim C6: the background merge is idempotent, and a lead whose identity
is already displayed is never added again: the displayed leads carrying any
already-present identity are exactly those that were there before. -/
theorem merge_idempotent (D B : List Lead) (x : String) :
    SalesLeads.mergeLeads (SalesLeads.mergeLeads D B) B = SalesLeads.mergeLeads D B
  ∧ (x ∈ D.map Lead.id →
      (SalesLeads.mergeLeads D B).filter (fun p => p.id == x)
        = D.filter (fun p => p.id == x)) := by
  constructor
  · have hnil : newLeads (SalesLeads.mergeLeads D B) B = [] := by
      apply List.filter_eq_nil_iff.mpr
      intro l hl
      simp [mergeLeads_covers D B l hl]
    rw [mergeLeads_def (SalesLeads.mergeLeads D B) B, hnil]
    simp
  · intro hx
    rw [mergeLeads_def]
    by_cases h0 : (newLeads D B).length = 0
    · rw [if_pos h0]
    · rw [if_neg h0, List.filter_append]
      have hnone : (newLeads D B).filter (fun p => p.id == x) = [] := by
        apply List.filter_eq_nil_iff.mpr
        intro l hl hidx
        have hnew := (List.mem_filter.mp hl).2
        have hid : l.id = x := by simpa using hidx
        have : D.any (fun p => p.id == l.id) = true := by
          rw [mem_ids_any, hid]; exact hx
        simp [this] at hnew
      rw [hnone, List.append_nil]

/-- Claim C6 witness at a concrete displayed collection and page. -/
theorem merge_idempotent_witness :
    SalesLeads.mergeLeads (SalesLeads.mergeLeads [leadU1] [leadU1, leadU2])
        [leadU1, leadU2]
      = SalesLeads.mergeLeads [leadU1] [leadU1, leadU2]
  ∧ (SalesLeads.mergeLeads [leadU1] [leadU1, leadU2]).filter
        (fun p => p.id == leadU1.id)
      = [leadU1].filter (fun p => p.id == leadU1.id) :=
  ⟨(merge_idempotent [leadU1] [leadU1, leadU2] leadU1.id).1,
   (merge_idempotent [leadU1] [leadU1, leadU2] leadU1.id).2 (by decide)⟩

/-- Claim C7: when a background page request errors, the continuation halts
after that single request, the error is logged, and the displayed
collection is exactly what it was before the failing request. -/
theorem background_error_halts (respond : Nat → Except Unit (List Lead))
    (u : Viewer) (subs : List String) (fuel offset reqs : Nat) (leads : List Lead)
    (herr : respond offset = Except.error ()) (hfuel : 0 < fuel) :
    SalesLeads.loadRemainingGo respond u subs fuel offset leads reqs
      = ⟨leads, reqs + 1, true⟩ := by
  cases fuel with
  | zero => exact absurd hfuel (lt_irrefl 0)
  | succ f => simp [SalesLeads.loadRemainingGo, herr]

/-- Claim C7 witness: an always-erroring store halts a concrete
continuation at once, keeping the already-merged lead. -/
theorem background_error_halts_witness :
    SalesLeads.loadRemainingGo errRespond adminV [] 5 1000 [leadU1] 1
      = ⟨[leadU1], 2, true⟩ :=
  background_error_halts errRespond adminV [] 5 1000 1 [leadU1] rfl (by decide)

/-- Claim C3: a viewer whose role is none of admin, desk, manager, agent
falls through every branch of the role filter, so both the first-page
filter and the background filter return the batch unchanged. -/
theorem other_role_filter_identity (u : Viewer) (subs : List String) (b : List Lead)
    (h1 : u.role ≠ "admin") (h2 : u.role ≠ "desk")
    (h3 : u.role ≠ "manager") (h4 : u.role ≠ "agent") :
    SalesLeads.filterFirstBatch u subs b = b
  ∧ SalesLeads.filterBatchBg u subs b = b := by
  constructor
  · simp [SalesLeads.filterFirstBatch, h1, h2, h3, h4]
  · simp [SalesLeads.filterBatchBg, h1, h2, h3, h4]

/-- Claim C3 witness at a concrete unrecognised role. -/
theorem other_role_filter_identity_witness :
    SalesLeads.filterFirstBatch otherV ["u2"] [leadU1, leadU4] = [leadU1, leadU4]
  ∧ SalesLeads.filterBatchBg otherV ["u2"] [leadU1, leadU4] = [leadU1, leadU4] :=
  other_role_filter_identity otherV ["u2"] [leadU1, leadU4]
    (by decide) (by decide) (by decide) (by decide)

/-- Claim C9: for an agent, both filters keep exactly the leads assigned to
the agent's own identity, whatever the subordinate set is. -/
theorem agent_visibility (u : Viewer) (subs : List String) (b : List Lead)
    (l : Lead) (h : u.role = "agent") :
    (l ∈ SalesLeads.filterFirstBatch u subs b ↔ l ∈ b ∧ l.assigned_to = some u.id)
  ∧ (l ∈ SalesLeads.filterBatchBg u subs b ↔ l ∈ b ∧ l.assigned_to = some u.id) := by
  have hne1 : u.role ≠ "admin" := by rw [h]; decide
  have hne2 : u.role ≠ "desk" := by rw [h]; decide
  have hne3 : u.role ≠ "manager" := by rw [h]; decide
  constructor
  · simp [SalesLeads.filterFirstBatch, hne1, hne2, hne3, h, List.mem_filter]
  · simp [SalesLeads.filterBatchBg, hne1, hne2, hne3, h, List.mem_filter]

/-- Claim C9 witness: a concrete agent sees its own lead and not another
agent's lead. -/
theorem agent_visibility_witness :
    (leadU1 ∈ SalesLeads.filterFirstBatch agentV ["u2"] [leadU1, leadU2]
      ↔ leadU1 ∈ [leadU1, leadU2] ∧ leadU1.assigned_to = some agentV.id)
  ∧ (leadU1 ∈ SalesLeads.filterBatchBg agentV ["u2"] [leadU1, leadU2]
      ↔ leadU1 ∈ [leadU1, leadU2] ∧ leadU1.assigned_to = some agentV.id) :=
  agent_visibility agentV ["u2"] [leadU1, leadU2] leadU1 rfl

/-- Claim C5: for a manager, both filters keep exactly the leads assigned
to the manager itself or to a subordinate; in the spec scenario
(viewer u1, subordinates u2 and u3, leads assigned to u1, u2, u4) exactly
the leads assigned to u1 and u2 remain. -/
theorem manager_visibility (u : Viewer) (subs : List String) (b : List Lead)
    (l : Lead) (h : u.role = "manager") :
    ((l ∈ SalesLeads.filterFirstBatch u subs b
        ↔ l ∈ b ∧ (l.assigned_to = some u.id ∨ ∃ a ∈ subs, l.assigned_to = some a))
      ∧ (l ∈ SalesLeads.filterBatchBg u subs b
        ↔ l ∈ b ∧ (l.assigned_to = some u.id ∨ ∃ a ∈ subs, l.assigned_to = some a)))
  ∧ SalesLeads.filterFirstBatch mgrV ["u2", "u3"] [leadU1, leadU2, leadU4]
      = [leadU1, leadU2]
  ∧ SalesLeads.filterBatchBg mgrV ["u2", "u3"] [leadU1, leadU2, leadU4]
      = [leadU1, leadU2] := by
  have hne1 : u.role ≠ "admin" := by rw [h]; decide
  have hne2 : u.role ≠ "desk" := by rw [h]; decide
  refine ⟨⟨?_, ?_⟩, by decide, by decide⟩
  · simp [SalesLeads.filterFirstBatch, hne1, hne2, h, List.mem_filter,
      assignedIn_iff]
  · simp [SalesLeads.filterBatchBg, hne1, hne2, h, List.mem_filter,
      assignedIn_iff]

/-- Claim C5 witness: the subordinate-assigned lead is visible in the
concrete scenario. -/
theorem manager_visibility_witness :
    leadU2 ∈ SalesLeads.filterFirstBatch mgrV ["u2", "u3"] [leadU1, leadU2, leadU4] :=
  ((manager_visibility mgrV ["u2", "u3"] [leadU1, leadU2, leadU4] leadU2
      rfl).1.1).mpr ⟨by decide, Or.inr ⟨"u2", by decide, by decide⟩⟩

/-- Claim C1: contrary to the admin-only deletion rule, the role gate that
guards bulk deletion accepts the desk role as well ('checkUserRole' sets
isAdmin to role == admin OR role == desk), so a desk viewer's confirmed
bulk delete is issued against the store rather than rejected — even though
the handler's own rejection message reads 'Only admins can delete leads'. -/
theorem bulk_delete_gate_admits_desk :
    BulkActions.checkUserRole (some deskV) = true
  ∧ deskV.role ≠ "admin"
  ∧ BulkActions.handleDeleteLeads (BulkActions.checkUserRole (some deskV))
        true true [leadU1, leadU2]
      = BulkActions.DeleteResult.deleted [leadU1.id, leadU2.id] := by
  decide

/-- Claim C10: a successful single-lead status change (and likewise a
single-lead assignment change) rewrites the displayed collection in place
without triggering a refetch: the length and order are preserved, a lead
whose identity differs from the target is left untouched, and the target
lead changes exactly its status (respectively assigned_to) field. -/
theorem single_update_in_place (leads : List Lead) (leadId newStatus : String)
    (agentId : Option String) :
    ((SalesLeads.handleStatusChange true leadId newStatus leads).leads
        = SalesLeads.applyStatusChange leadId newStatus leads
      ∧ (SalesLeads.handleStatusChange true leadId newStatus leads).refetch = false
      ∧ (SalesLeads.handleStatusChange true leadId newStatus leads).toasts
        = ["Status updated successfully"])
  ∧ ((SalesLeads.handleAssignAgent true leadId agentId leads).leads
        = SalesLeads.applyAssignAgent leadId agentId leads
      ∧ (SalesLeads.handleAssignAgent true leadId agentId leads).refetch = false)
  ∧ (SalesLeads.applyStatusChange leadId newStatus leads).length = leads.length
  ∧ (SalesLeads.applyAssignAgent leadId agentId leads).length = leads.length
  ∧ (∀ (i : Nat) (h1 : i < leads.length)
        (h2 : i < (SalesLeads.applyStatusChange leadId newStatus leads).length),
      ((leads.get ⟨i, h1⟩).id ≠ leadId →
        (SalesLeads.applyStatusChange leadId newStatus leads).get ⟨i, h2⟩
          = leads.get ⟨i, h1⟩)
      ∧ ((leads.get ⟨i, h1⟩).id = leadId →
        (SalesLeads.applyStatusChange leadId newStatus leads).get ⟨i, h2⟩
          = { leads.get ⟨i, h1⟩ with status := newStatus }))
  ∧ (∀ (i : Nat) (h1 : i < leads.length)
        (h2 : i < (SalesLeads.applyAssignAgent leadId agentId leads).length),
      ((leads.get ⟨i, h1⟩).id ≠ leadId →
        (SalesLeads.applyAssignAgent leadId agentId leads).get ⟨i, h2⟩
          = leads.get ⟨i, h1⟩)
      ∧ ((leads.get ⟨i, h1⟩).id = leadId →
        (SalesLeads.applyAssignAgent leadId agentId leads).get ⟨i, h2⟩
          = { leads.get ⟨i, h1⟩ with assigned_to := agentId })) := by
  refine ⟨⟨rfl, rfl, rfl⟩, ⟨rfl, rfl⟩, ?_, ?_, ?_, ?_⟩
  · simp [SalesLeads.applyStatusChange]
  · simp [SalesLeads.applyAssignAgent]
  · intro i h1 h2
    have hstep : (SalesLeads.applyStatusChange leadId newStatus leads).get ⟨i, h2⟩
        = if (leads.get ⟨i, h1⟩).id == leadId
          then { leads.get ⟨i, h1⟩ with status := newStatus }
          else leads.get ⟨i, h1⟩ := by
      simp [SalesLeads.applyStatusChange, List.get_eq_getElem]
    constructor
    · intro hne
      rw [hstep, if_neg (by simpa using hne)]
    · intro heq
      rw [hstep, if_pos (by simpa using heq)]
  · intro i h1 h2
    have hstep : (SalesLeads.applyAssignAgent leadId agentId leads).get ⟨i, h2⟩
        = if (leads.get ⟨i, h1⟩).id == leadId
          then { leads.get ⟨i, h1⟩ with assigned_to := agentId }
          else leads.get ⟨i, h1⟩ := by
      simp [SalesLeads.applyAssignAgent, List.get_eq_getElem]
    constructor
    · intro hne
      rw [hstep, if_neg (by simpa using hne)]
    · intro heq
      rw [hstep, if_pos (by simpa using heq)]

/-- Claim C10 witness: changing the status of lead L1 in a concrete
two-lead collection touches only L1's status field. -/
theorem single_update_in_place_witness :
    ((SalesLeads.applyStatusChange "L1" "Hot" [leadU1, leadU2]).get
        ⟨1, by decide⟩ = [leadU1, leadU2].get ⟨1, by decide⟩)
  ∧ ((SalesLeads.applyStatusChange "L1" "Hot" [leadU1, leadU2]).get
        ⟨0, by decide⟩ = { leadU1 with status := "Hot" }) :=
  ⟨((single_update_in_place [leadU1, leadU2] "L1" "Hot" none).2.2.2.2.1 1
      (by decide) (by decide)).1 (by decide),
   ((single_update_in_place [leadU1, leadU2] "L1" "Hot" none).2.2.2.2.1 0
      (by decide) (by decide)).2 (by decide)⟩

/-- Claim C8: in a bulk status update over three selected leads where the
store update succeeds and the second audit insert fails, every selected
lead carries the new status in the store, exactly the first and third
audit records are appended (the failed one is neither rolled back nor
retried), and a single success notification is shown. -/
theorem bulk_status_partial_audit (db : Db) (l1 l2 l3 : Lead) (s : String) :
    (∀ l ∈ (BulkActions.handleStatusChange [l1, l2, l3] s true
        (fun i => !(i == 1)) db).db.leads,
      l.id ∈ [l1.id, l2.id, l3.id] → l.status = s)
  ∧ (BulkActions.handleStatusChange [l1, l2, l3] s true
        (fun i => !(i == 1)) db).db.activities
      = db.activities ++
        [{ lead_id := l1.id, type := "status_change",
           description := "Status changed to " ++ s ++ " (bulk update)" },
         { lead_id := l3.id, type := "status_change",
           description := "Status changed to " ++ s ++ " (bulk update)" }]
  ∧ (BulkActions.handleStatusChange [l1, l2, l3] s true
        (fun i => !(i == 1)) db).db.activities.length
      = db.activities.length + 2
  ∧ (BulkActions.handleStatusChange [l1, l2, l3] s true
        (fun i => !(i == 1)) db).toasts
      = ["Status updated for selected leads"] := by
  have hacts : (BulkActions.handleStatusChange [l1, l2, l3] s true
      (fun i => !(i == 1)) db).db.activities
      = db.activities ++
        [{ lead_id := l1.id, type := "status_change",
           description := "Status changed to " ++ s ++ " (bulk update)" },
         { lead_id := l3.id, type := "status_change",
           description := "Status changed to " ++ s ++ " (bulk update)" }] := rfl
  refine ⟨?_, hacts, by rw [hacts]; simp, rfl⟩
  intro l hl hid
  simp only [BulkActions.handleStatusChange, if_true, List.mem_map] at hl
  obtain ⟨l0, hl0, rfl⟩ := hl
  have hid_eq : (if (List.map Lead.id [l1, l2, l3]).contains l0.id = true
      then { l0 with status := s } else l0).id = l0.id := by
    split <;> rfl
  rw [hid_eq] at hid
  have hc : (List.map Lead.id [l1, l2, l3]).contains l0.id = true :=
    List.elem_iff.mpr hid
  rw [if_pos hc]

/-- Claim C8 witness at the concrete sample store. -/
theorem bulk_status_partial_audit_witness :
    (({ leadU1 with status := "Hot" } : Lead).status = "Hot")
  ∧ (BulkActions.handleStatusChange [leadU1, leadU2, leadU4] "Hot" true
        (fun i => !(i == 1)) db0).db.activities.length
      = db0.activities.length + 2
  ∧ (BulkActions.handleStatusChange [leadU1, leadU2, leadU4] "Hot" true
        (fun i => !(i == 1)) db0).toasts
      = ["Status updated for selected leads"] :=
  ⟨(bulk_status_partial_audit db0 leadU1 leadU2 leadU4 "Hot").1
      { leadU1 with status := "Hot" } (by decide) (by decide),
   (bulk_status_partial_audit db0 leadU1 leadU2 leadU4 "Hot").2.2.1,
   (bulk_status_partial_audit db0 leadU1 leadU2 leadU4 "Hot").2.2.2⟩

lemma visibleSpec_set_status (u : Viewer) (subs : List String) (l : Lead) (s : String) :
    visibleSpec u subs { l with status := s } = visibleSpec u subs l := rfl

lemma applyStatusChange_ids (id0 s : String) (D : List Lead) :
    (SalesLeads.applyStatusChange id0 s D).map Lead.id = D.map Lead.id := by
  unfold SalesLeads.applyStatusChange
  rw [List.map_map]
  apply List.map_congr_left
  intro l _
  by_cases h : (l.id == id0) = true
  · rw [Function.comp_apply, if_pos h]
  · rw [Function.comp_apply, if_neg h]

lemma applyAssignAgent_ids (id0 : String) (a : Option String) (D : List Lead) :
    (SalesLeads.applyAssignAgent id0 a D).map Lead.id = D.map Lead.id := by
  unfold SalesLeads.applyAssignAgent
  rw [List.map_map]
  apply List.map_congr_left
  intro l _
  by_cases h : (l.id == id0) = true
  · rw [Function.comp_apply, if_pos h]
  · rw [Function.comp_apply, if_neg h]

lemma inv_first (u : Viewer) (subs : List String) (table : List Lead)
    (hnd : (table.map Lead.id).Nodup) :
    displayInvariant u subs
      (SalesLeads.filterFirstBatch u subs (SalesLeads.leadsQuery table 0)) := by
  rw [filterFirstBatch_eq_filter]
  have hq : List.Sublist (SalesLeads.leadsQuery table 0) table := by
    unfold SalesLeads.leadsQuery SalesLeads.nonConverted
    rw [List.drop_zero]
    exact (List.take_sublist _ _).trans (List.filter_sublist _)
  constructor
  · exact hnd.sublist (((List.filter_sublist _).trans hq).map Lead.id)
  · intro l hl
    have h2 := List.mem_filter.mp hl
    refine ⟨?_, h2.2⟩
    have h3 : l ∈ SalesLeads.nonConverted table := by
      have h4 := h2.1
      unfold SalesLeads.leadsQuery at h4
      rw [List.drop_zero] at h4
      exact List.mem_of_mem_take h4
    simpa using (List.mem_filter.mp h3).2

lemma inv_merge (u : Viewer) (subs : List String) (D data : List Lead)
    (hD : displayInvariant u subs D) (hnd : (data.map Lead.id).Nodup)
    (hc : ∀ l ∈ data, l.is_converted = false) :
    displayInvariant u subs
      (SalesLeads.mergeLeads D (SalesLeads.filterBatchBg u subs data)) := by
  rw [filterBatchBg_eq_filter, mergeLeads_def]
  by_cases h0 : (newLeads D (data.filter (visibleSpec u subs))).length = 0
  · rw [if_pos h0]; exact hD
  · rw [if_neg h0]
    have hsub : List.Sublist (newLeads D (data.filter (visibleSpec u subs))) data :=
      (List.filter_sublist _).trans (List.filter_sublist _)
    constructor
    · rw [List.map_append, List.nodup_append]
      refine ⟨hD.1, hnd.sublist (hsub.map Lead.id), ?_⟩
      intro x hxD hxN
      obtain ⟨l, hl, rfl⟩ := List.mem_map.mp hxN
      have hmem := (List.mem_filter.mp hl).2
      have hany : D.any (fun p => p.id == l.id) = true :=
        (mem_ids_any D l.id).mpr hxD
      simp [hany] at hmem
    · intro l hl
      rcases List.mem_append.mp hl with h | h
      · exact hD.2 l h
      · have h1 := List.mem_filter.mp ((List.mem_filter.mp h).1)
        exact ⟨hc l h1.1, h1.2⟩

lemma inv_status (u : Viewer) (subs : List String) (id0 s : String) (D : List Lead)
    (h : displayInvariant u subs D) :
    displayInvariant u subs (SalesLeads.applyStatusChange id0 s D) := by
  constructor
  · rw [applyStatusChange_ids]; exact h.1
  · intro l hl
    simp only [SalesLeads.applyStatusChange, List.mem_map] at hl
    obtain ⟨l0, hl0, rfl⟩ := hl
    have h0 := h.2 l0 hl0
    by_cases hc : (l0.id == id0) = true
    · rw [if_pos hc]
      exact ⟨h0.1, by rw [visibleSpec_set_status]; exact h0.2⟩
    · rw [if_neg hc]
      exact h0

lemma assign_keeps_converted (u : Viewer) (subs : List String) (id0 : String)
    (a : Option String) (D : List Lead) (h : displayInvariant u subs D) :
    ((SalesLeads.applyAssignAgent id0 a D).map Lead.id).Nodup
  ∧ ∀ l ∈ SalesLeads.applyAssignAgent id0 a D, l.is_converted = false := by
  constructor
  · rw [applyAssignAgent_ids]; exact h.1
  · intro l hl
    simp only [SalesLeads.applyAssignAgent, List.mem_map] at hl
    obtain ⟨l0, hl0, rfl⟩ := hl
    have h0 := h.2 l0 hl0
    by_cases hc : (l0.id == id0) = true
    · rw [if_pos hc]; exact h0.1
    · rw [if_neg hc]; exact h0.1

/-- Claim C4 (amended): after the first-page display and after every
background merge the displayed collection holds no duplicate identities
and only unconverted leads visible to the viewer; an in-place single-lead
status update preserves all of this; an in-place assignment update
preserves deduplication and unconvertedness (but not, in general, the
visibility of the reassigned lead). -/
theorem display_invariant_ops (u : Viewer) (subs : List String)
    (table D data : List Lead) (id0 s : String) (a : Option String) :
    ((table.map Lead.id).Nodup →
      displayInvariant u subs
        (SalesLeads.filterFirstBatch u subs (SalesLeads.leadsQuery table 0)))
  ∧ (displayInvariant u subs D → (data.map Lead.id).Nodup →
      (∀ l ∈ data, l.is_converted = false) →
      displayInvariant u subs
        (SalesLeads.mergeLeads D (SalesLeads.filterBatchBg u subs data)))
  ∧ (displayInvariant u subs D →
      displayInvariant u subs (SalesLeads.applyStatusChange id0 s D))
  ∧ (displayInvariant u subs D →
      ((SalesLeads.applyAssignAgent id0 a D).map Lead.id).Nodup
    ∧ ∀ l ∈ SalesLeads.applyAssignAgent id0 a D, l.is_converted = false) :=
  ⟨fun hnd => inv_first u subs table hnd,
   fun hD hnd hc => inv_merge u subs D data hD hnd hc,
   fun hD => inv_status u subs id0 s D hD,
   fun hD => assign_keeps_converted u subs id0 a D hD⟩

/-- Claim C4 witness at the concrete sample state. -/
theorem display_invariant_ops_witness :
    displayInvariant agentV []
      (SalesLeads.applyStatusChange "L1" "Hot" [leadU1])
  ∧ displayInvariant agentV []
      (SalesLeads.mergeLeads [leadU1] (SalesLeads.filterBatchBg agentV [] [leadU2])) :=
  ⟨(display_invariant_ops agentV [] [] [leadU1] [] "L1" "Hot" none).2.2.1
      ⟨by decide, by decide⟩,
   (display_invariant_ops agentV [] [] [leadU1] [leadU2] "L1" "Hot" none).2.1
      ⟨by decide, by decide⟩ (by decide) (by decide)⟩

/-- Claim C4 counterexample: reassigning lead L1 from agent u1 to u2 keeps
the lead in the displayed collection (the in-place update substitutes the
new value), yet the lead no longer satisfies the agent's visibility
predicate, so the invariant does not survive an assignment update. -/
theorem assign_update_breaks_visibility :
    displayInvariant agentV [] [leadU1]
  ∧ ¬ (∀ l ∈ SalesLeads.applyAssignAgent "L1" (some "u2") [leadU1],
        visibleSpec agentV [] l = true) := by
  refine ⟨⟨by decide, by decide⟩, ?_⟩
  intro hall
  exact absurd (hall { leadU1 with assigned_to := some "u2" } (by decide)) (by decide)

lemma go_store_succ (respond : Nat → Except Unit (List Lead)) (u : Viewer)
    (subs : List String) (f offset reqs : Nat) (leads : List Lead) :
    SalesLeads.loadRemainingGo respond u subs (f + 1) offset leads reqs
      = match respond offset with
        | Except.error _ => ⟨leads, reqs + 1, true⟩
        | Except.ok data =>
          if 0 < data.length then
            if data.length < SalesLeads.batchSize then
              ⟨SalesLeads.appendFiltered leads (SalesLeads.filterBatchBg u subs data),
                reqs + 1, false⟩
            else
              SalesLeads.loadRemainingGo respond u subs f (offset + SalesLeads.batchSize)
                (SalesLeads.appendFiltered leads (SalesLeads.filterBatchBg u subs data))
                (reqs + 1)
          else ⟨leads, reqs + 1, false⟩ := rfl

lemma go_store_succ' (table : List Lead) (u : Viewer) (subs : List String)
    (f offset reqs : Nat) (leads : List Lead) :
    SalesLeads.loadRemainingGo (SalesLeads.storeRespond table) u subs (f + 1) offset leads reqs
      = if 0 < (SalesLeads.leadsQuery table offset).length then
          if (SalesLeads.leadsQuery table offset).length < SalesLeads.batchSize then
            ⟨SalesLeads.appendFiltered leads
                (SalesLeads.filterBatchBg u subs (SalesLeads.leadsQuery table offset)),
              reqs + 1, false⟩
          else
            SalesLeads.loadRemainingGo (SalesLeads.storeRespond table) u subs f
              (offset + SalesLeads.batchSize)
              (SalesLeads.appendFiltered leads
                (SalesLeads.filterBatchBg u subs (SalesLeads.leadsQuery table offset)))
              (reqs + 1)
        else ⟨leads, reqs + 1, false⟩ := rfl

lemma leadsQuery_length (table : List Lead) (offset : Nat) :
    (SalesLeads.leadsQuery table offset).length
      = min SalesLeads.batchSize ((SalesLeads.nonConverted table).length - offset) := by
  unfold SalesLeads.leadsQuery
  rw [List.length_take, List.length_drop]

lemma go_requests (table : List Lead) (u : Viewer) (subs : List String) :
    ∀ (fuel offset reqs : Nat) (leads : List Lead),
      (SalesLeads.loadRemainingGo (SalesLeads.storeRespond table) u subs fuel offset leads
          reqs).requests
        = reqs + min fuel
            (((SalesLeads.nonConverted table).length - offset) / SalesLeads.batchSize + 1) := by
  intro fuel
  induction fuel with
  | zero =>
    intro offset reqs leads
    simp [SalesLeads.loadRemainingGo]
  | succ f ih =>
    intro offset reqs leads
    rw [go_store_succ', leadsQuery_length]
    have hbs : SalesLeads.batchSize = 1000 := rfl
    rw [hbs]
    simp only [hbs] at ih
    by_cases hz : (SalesLeads.nonConverted table).length - offset = 0
    · rw [if_neg (by omega)]
      show reqs + 1
        = reqs + min (f + 1) (((SalesLeads.nonConverted table).length - offset) / 1000 + 1)
      omega
    · by_cases hshort : (SalesLeads.nonConverted table).length - offset < 1000
      · rw [if_pos (by omega), if_pos (by omega)]
        show reqs + 1
          = reqs + min (f + 1) (((SalesLeads.nonConverted table).length - offset) / 1000 + 1)
        omega
      · rw [if_pos (by omega), if_neg (by omega), ih]
        omega

lemma filterFirstBatch_admin (u : Viewer) (subs : List String) (b : List Lead)
    (h : u.role = "admin") : SalesLeads.filterFirstBatch u subs b = b := by
  simp [SalesLeads.filterFirstBatch, h]

lemma filterBatchBg_admin (u : Viewer) (subs : List String) (b : List Lead)
    (h : u.role = "admin") : SalesLeads.filterBatchBg u subs b = b := by
  simp [SalesLeads.filterBatchBg, h]

lemma merge_take (L : List Lead) (hnd : (L.map Lead.id).Nodup) (offset : Nat) :
    SalesLeads.mergeLeads (L.take offset) ((L.drop offset).take SalesLeads.batchSize)
      = L.take (offset + SalesLeads.batchSize) := by
  have hsplit : ((L.map Lead.id).take offset ++ (L.map Lead.id).drop offset).Nodup := by
    rw [List.take_append_drop]; exact hnd
  have hdisj := (List.nodup_append.mp hsplit).2.2
  have hnew : newLeads (L.take offset) ((L.drop offset).take SalesLeads.batchSize)
      = (L.drop offset).take SalesLeads.batchSize := by
    apply List.filter_eq_self.mpr
    intro l hl
    have hlmem : l ∈ L.drop offset := List.mem_of_mem_take hl
    cases hca : (L.take offset).any (fun p => p.id == l.id) with
    | false => rfl
    | true =>
      exfalso
      obtain ⟨p, hp, hpe⟩ := List.any_eq_true.mp hca
      have hpid : p.id = l.id := by simpa using hpe
      have h1 : l.id ∈ (L.map Lead.id).drop offset := by
        rw [← List.map_drop]
        exact List.mem_map_of_mem Lead.id hlmem
      have h2 : l.id ∈ (L.map Lead.id).take offset := by
        rw [← List.map_take, ← hpid]
        exact List.mem_map_of_mem Lead.id hp
      exact hdisj h2 h1
  rw [mergeLeads_def, hnew]
  by_cases h0 : ((L.drop offset).take SalesLeads.batchSize).length = 0
  · rw [if_pos h0]
    have hlen : L.length ≤ offset := by
      rw [List.length_take, List.length_drop] at h0
      have hbs : SalesLeads.batchSize = 1000 := rfl
      rw [hbs] at h0
      omega
    rw [List.take_of_length_le hlen, List.take_of_length_le (by omega)]
  · rw [if_neg h0]
    exact (List.take_add L offset SalesLeads.batchSize).symm

lemma go_display (table : List Lead) (u : Viewer) (subs : List String)
    (hadm : u.role = "admin")
    (hnd : ((SalesLeads.nonConverted table).map Lead.id).Nodup) :
    ∀ (fuel offset reqs : Nat),
      (SalesLeads.nonConverted table).length ≤ offset + fuel * SalesLeads.batchSize →
      (SalesLeads.loadRemainingGo (SalesLeads.storeRespond table) u subs fuel offset
          ((SalesLeads.nonConverted table).take offset) reqs).leads
        = SalesLeads.nonConverted table := by
  intro fuel
  induction fuel with
  | zero =>
    intro offset reqs hle
    simp only [SalesLeads.loadRemainingGo]
    exact List.take_of_length_le (by simpa using hle)
  | succ f ih =>
    intro offset reqs hle
    rw [go_store_succ']
    have hbs : SalesLeads.batchSize = 1000 := rfl
    have hquery : SalesLeads.leadsQuery table offset
        = ((SalesLeads.nonConverted table).drop offset).take SalesLeads.batchSize := rfl
    have hqlen := leadsQuery_length table offset
    by_cases hz : (SalesLeads.nonConverted table).length ≤ offset
    · rw [if_neg (by rw [hqlen, hbs]; omega)]
      exact List.take_of_length_le hz
    · have hmerge : SalesLeads.appendFiltered ((SalesLeads.nonConverted table).take offset)
          (SalesLeads.filterBatchBg u subs (SalesLeads.leadsQuery table offset))
          = (SalesLeads.nonConverted table).take (offset + SalesLeads.batchSize) := by
        rw [filterBatchBg_admin u subs _ hadm, hquery]
        unfold SalesLeads.appendFiltered
        rw [if_pos (by rw [List.length_take, List.length_drop, hbs]; omega)]
        exact merge_take (SalesLeads.nonConverted table) hnd offset
      by_cases hshort : (SalesLeads.nonConverted table).length < offset + SalesLeads.batchSize
      · rw [if_pos (by rw [hqlen, hbs]; rw [hbs] at hshort; omega),
          if_pos (by rw [hqlen, hbs]; rw [hbs] at hshort; omega)]
        show SalesLeads.appendFiltered ((SalesLeads.nonConverted table).take offset)
            (SalesLeads.filterBatchBg u subs (SalesLeads.leadsQuery table offset))
          = SalesLeads.nonConverted table
        rw [hmerge]
        exact List.take_of_length_le (by omega)
      · rw [if_pos (by rw [hqlen, hbs]; rw [hbs] at hshort; omega),
          if_neg (by rw [hqlen, hbs]; rw [hbs] at hshort; omega)]
        rw [hmerge]
        exact ih (offset + SalesLeads.batchSize) (reqs + 1)
          (by rw [hbs]; rw [hbs] at hle; omega)

/-- Claim C2 (amended): over a store with N matching records and page size
1000, one fetch run issues 1 + min 100 ((N - 1000) / 1000 + 1) page
requests — the synchronous first page plus a background continuation that
always probes one page past the data when N is 0 or a multiple of 1000 —
so at most 101 requests in total; with N = 2500 this is exactly 3
requests, and an admin viewer then ends up displaying every matching
record exactly once. -/
theorem fetch_requests_formula (table : List Lead) (u : Viewer) (subs : List String) :
    (SalesLeads.fetchLeadsRun (SalesLeads.storeRespond table) u subs).requests
      = 1 + min 100
          (((SalesLeads.nonConverted table).length - SalesLeads.batchSize)
            / SalesLeads.batchSize + 1)
  ∧ (SalesLeads.fetchLeadsRun (SalesLeads.storeRespond table) u subs).requests ≤ 101
  ∧ ((SalesLeads.nonConverted table).length = 2500 →
      (SalesLeads.fetchLeadsRun (SalesLeads.storeRespond table) u subs).requests = 3)
  ∧ (u.role = "admin" → (table.map Lead.id).Nodup →
      (SalesLeads.nonConverted table).length ≤ 101000 →
      (SalesLeads.fetchLeadsRun (SalesLeads.storeRespond table) u subs).leads
        = SalesLeads.nonConverted table) := by
  have hreq : (SalesLeads.fetchLeadsRun (SalesLeads.storeRespond table) u subs).requests
      = 1 + min 100
          (((SalesLeads.nonConverted table).length - SalesLeads.batchSize)
            / SalesLeads.batchSize + 1) := by
    show (SalesLeads.loadRemainingGo (SalesLeads.storeRespond table) u subs 100
        SalesLeads.batchSize
        (SalesLeads.filterFirstBatch u subs (SalesLeads.leadsQuery table 0)) 1).requests = _
    exact go_requests table u subs 100 SalesLeads.batchSize 1 _
  have hbs : SalesLeads.batchSize = 1000 := rfl
  refine ⟨hreq, by rw [hreq]; omega, ?_, ?_⟩
  · intro h2500
    rw [hreq, h2500, hbs]
    decide
  · intro hadm hnd hle
    have hnd' : ((SalesLeads.nonConverted table).map Lead.id).Nodup :=
      hnd.sublist ((List.filter_sublist table).map Lead.id)
    show (SalesLeads.loadRemainingGo (SalesLeads.storeRespond table) u subs 100
        SalesLeads.batchSize
        (SalesLeads.filterFirstBatch u subs (SalesLeads.leadsQuery table 0)) 1).leads
      = SalesLeads.nonConverted table
    have hfirst : SalesLeads.filterFirstBatch u subs (SalesLeads.leadsQuery table 0)
        = (SalesLeads.nonConverted table).take SalesLeads.batchSize := by
      rw [filterFirstBatch_admin u subs _ hadm]
      unfold SalesLeads.leadsQuery
      rw [List.drop_zero]
    rw [hfirst]
    exact go_display table u subs hadm hnd' 100 SalesLeads.batchSize 1 (by omega)

/-- Claim C2 counterexample: with a single matching record the run issues
2 page requests (the first page plus one background probe of an empty
page), while the ceiling formula of the claim demands exactly 1. -/
theorem fetch_requests_ne_ceil :
    (SalesLeads.nonConverted [leadU1]).length = 1
  ∧ (SalesLeads.fetchLeadsRun (SalesLeads.storeRespond [leadU1]) adminV []).requests = 2
  ∧ ((SalesLeads.nonConverted [leadU1]).length + SalesLeads.batchSize - 1)
        / SalesLeads.batchSize = 1 := by
  decide

/-- Claim C2 witness: a two-lead store for an admin viewer, run end to
end through the formula theorem. -/
theorem fetch_requests_formula_witness :
    (SalesLeads.fetchLeadsRun (SalesLeads.storeRespond [leadU1, leadU2]) adminV []).leads
      = SalesLeads.nonConverted [leadU1, leadU2] :=
  (fetch_requests_formula [leadU1, leadU2] adminV []).2.2.2 rfl (by decide) (by decide)
